import Mathlib

/-!
Shallow embedding of the daikanban data model and board operations
(`src/daikanban/model.py`), restricted to the fragment the verified
properties are about: the Task lifecycle state machine, timestamp
validation, board CRUD with duplicate-name enforcement, name resolution,
and board reconciliation (`update_with_board`).

Modelling conventions:
- `datetime` values are integers (seconds); durations are rationals (days),
  with `get_duration_between` dividing a second count by 86400.
- Python sets are `Finset`s (Python set equality is order-insensitive);
  Python lists are `List`s; the open `extra` bag is a `Finset` of key/value
  pairs (Python `dict` equality is order-insensitive).
- UUIDs are natural numbers.
- Python `dict[Id, ...]` maps are insertion-ordered association lists;
  `dictInsert` overwrites in place, preserving position, like Python.
- Fallible code returns `Except`.  Board-mutating operations return
  `Except (KErr × Board) Board`: a raised exception carries the board state
  at the moment of the raise, which models Python's in-place mutation of
  `self` (an aborted call may leave earlier mutations behind).
- The ambient configuration's name matcher (`get_config().name_matcher`)
  is passed explicitly as a `matcher` argument; the current wall-clock time
  (`get_current_time()`) is passed explicitly as a `now` argument.
- pydantic field-level validators outside the claims' scope (name must
  contain a letter, scores nonnegative, URL well-formedness) are not
  modelled; `check_consistent_times` (the `model_validator`) is modelled in
  full and re-run on every task reconstruction, as pydantic does.
-/

namespace DK

/-- Error classes of `src/daikanban/model.py` (the fragment used here).
`pyKeyError` stands for an uncaught Python `KeyError`/`TypeError`/assertion
on paths the guards make unreachable. -/
inductive KErr where
  | inconsistentTimestamp
  | taskStatus
  | projectNotFound
  | taskNotFound
  | duplicateProject
  | duplicateProjectName
  | duplicateTask
  | duplicateTaskName
  | ambiguousProjectName
  | ambiguousTaskName
  | versionMismatch
  | pyKeyError
  deriving DecidableEq, Repr

/-- `TaskStatus` from `src/daikanban/task.py`. -/
inductive TaskStatus where
  | todo
  | active
  | paused
  | complete
  deriving DecidableEq, Repr

/-- `TaskStatusAction` from `src/daikanban/model.py`. -/
inductive TaskStatusAction where
  | start
  | complete
  | pause
  | resume
  deriving DecidableEq, Repr

/-- `Log` dataclass (`model.py`). -/
structure Log where
  time : Option Int
  type : Option String
  note : Option String
  rating : Option ℚ
  deriving DecidableEq, Repr

/-- `Project` dataclass (`model.py`).  Links are kept as plain strings. -/
structure Project where
  name : String
  uuid : Nat
  description : Option String := none
  created_time : Int
  modified_time : Int
  links : Option (Finset String) := none
  parent : Option Nat := none
  notes : Option (List String) := none
  extra : Option (Finset (String × String)) := none
  deriving DecidableEq

/-- `Task` dataclass (`model.py`). -/
structure Task where
  name : String
  uuid : Nat
  description : Option String := none
  priority : Option ℚ := none
  expected_difficulty : Option ℚ := none
  expected_duration : Option ℚ := none
  due_time : Option Int := none
  project_id : Option Nat := none
  tags : Option (Finset String) := none
  links : Option (Finset String) := none
  created_time : Int
  modified_time : Int
  first_started_time : Option Int := none
  last_started_time : Option Int := none
  last_paused_time : Option Int := none
  completed_time : Option Int := none
  prior_time_worked : Option ℚ := none
  blocked_by : Option (Finset Nat) := none
  parent : Option Nat := none
  logs : Option (List Log) := none
  notes : Option (List String) := none
  extra : Option (Finset (String × String)) := none
  deriving DecidableEq

/-- `get_duration_between` (`utils.py`): duration in days between two
datetimes, as `total_seconds / SECS_PER_DAY`. -/
def durationBetween (dt1 dt2 : Int) : ℚ :=
  ((dt2 - dt1 : Int) : ℚ) / 86400

/-- `Task.status` (`model.py` lines 477-487): the derived status. -/
def Task.status (t : Task) : TaskStatus :=
  if t.first_started_time = none then .todo
  else if t.last_paused_time ≠ none then .paused
  else if t.completed_time ≠ none then .complete
  else .active

/-- `Task.total_time_worked` (`model.py` lines 511-521). -/
def Task.totalTimeWorked (t : Task) (now : Int) : ℚ :=
  let dur := t.prior_time_worked.getD 0
  if t.last_paused_time = none then
    match t.last_started_time.orElse (fun _ => t.first_started_time) with
    | some ls => dur + durationBetween ls (t.completed_time.getD now)
    | none => dur
  else dur

/-- `Task.check_consistent_times` (`model.py` lines 558-589), the pydantic
`model_validator` run on every construction of a `Task`.  On success it
returns the task unchanged; any violation is an `InconsistentTimestampError`. -/
def checkConsistentTimes (t : Task) : Except KErr Task :=
  if (match t.first_started_time with
      | some fs => decide (fs < t.created_time)
      | none => false) then .error .inconsistentTimestamp
  else if (match t.last_started_time, t.first_started_time with
      | some _, none => true
      | some ls, some fs => decide (ls < fs)
      | none, _ => false) then .error .inconsistentTimestamp
  else if (match t.last_paused_time with
      | some lp =>
        t.first_started_time.isNone || t.last_started_time.isSome ||
          (match t.first_started_time with
           | some fs => decide (lp < fs)
           | none => false)
      | none => false) then .error .inconsistentTimestamp
  else if (match t.completed_time with
      | some ct =>
        t.first_started_time.isNone ||
          (match t.first_started_time with
           | some fs => decide (ct < fs)
           | none => false) ||
          (match t.last_started_time with
           | some ls => decide (ct < ls)
           | none => false)
      | none => false) then .error .inconsistentTimestamp
  else if t.status = .paused ∧ t.prior_time_worked = none then
    .error .inconsistentTimestamp
  else .ok t

/-- `Task.started` (`model.py` lines 596-606).  `dt?` is the optional
explicit datetime argument (defaulting to the current time `now`).
Note the pre-creation-time failure raises a `TaskStatusError`. -/
def Task.started (t : Task) (dt? : Option Int) (now : Int) : Except KErr Task :=
  if t.status = .todo then
    let dt := dt?.getD now
    if dt < t.created_time then .error .taskStatus
    else checkConsistentTimes
      { t with first_started_time := some dt, modified_time := now }
  else .error .taskStatus

/-- `Task.completed` (`model.py` lines 608-618). -/
def Task.completed (t : Task) (dt? : Option Int) (now : Int) : Except KErr Task :=
  if t.status = .active then
    let dt := dt?.getD now
    match t.last_started_time.orElse (fun _ => t.first_started_time) with
    | none => .error .pyKeyError
    | some ls =>
      if dt < ls then .error .taskStatus
      else checkConsistentTimes
        { t with completed_time := some dt, modified_time := now }
  else .error .taskStatus

/-- `Task.paused` (`model.py` lines 620-632). -/
def Task.paused (t : Task) (dt? : Option Int) (now : Int) : Except KErr Task :=
  if t.status = .active then
    let dt := dt?.getD now
    match t.last_started_time.orElse (fun _ => t.first_started_time) with
    | none => .error .pyKeyError
    | some ls =>
      if dt < ls then .error .taskStatus
      else
        let dur := t.prior_time_worked.getD 0 + durationBetween ls dt
        checkConsistentTimes
          { t with last_started_time := none, last_paused_time := some dt,
                   prior_time_worked := some dur, modified_time := now }
  else .error .taskStatus

/-- `Task.resumed` (`model.py` lines 634-651): paused→active, or
complete→active (reopening). -/
def Task.resumed (t : Task) (dt? : Option Int) (now : Int) : Except KErr Task :=
  if t.status = .paused ∨ t.status = .complete then
    let dt := dt?.getD now
    if t.status = .paused then
      match t.last_paused_time with
      | none => .error .pyKeyError
      | some lp =>
        if dt < lp then .error .taskStatus
        else checkConsistentTimes
          { t with last_started_time := some dt, last_paused_time := none,
                   modified_time := now }
    else
      match t.completed_time with
      | none => .error .pyKeyError
      | some ct =>
        if dt < ct then .error .taskStatus
        else checkConsistentTimes
          { t with last_started_time := some dt,
                   prior_time_worked := some (t.totalTimeWorked now),
                   completed_time := none, modified_time := now }
  else .error .taskStatus

/-- `Task.apply_status_action` (`model.py` lines 653-672). -/
def Task.applyStatusAction (t : Task) (action : TaskStatusAction)
    (dt? first_dt? : Option Int) (now : Int) : Except KErr Task :=
  match action with
  | .start => t.started dt? now
  | .complete =>
    if t.status = .todo then
      (t.started first_dt? now).bind (fun t2 => t2.completed dt? now)
    else if t.status = .active ∨ t.status = .complete then
      t.completed dt? now
    else
      (t.resumed first_dt? now).bind (fun t2 => t2.completed dt? now)
  | .pause =>
    if t.status = .todo then
      (t.started first_dt? now).bind (fun t2 => t2.paused dt? now)
    else t.paused dt? now
  | .resume => t.resumed dt? now

/-- `Task.reset` (`model.py` lines 674-679): sets every field in
`Task.RESET_FIELDS` (`due_time`, the four progress timestamps,
`prior_time_worked`, `blocked_by`, `parent`, `logs`) to `None` and
refreshes `modified_time`; the resulting construction is revalidated. -/
def Task.reset (t : Task) (now : Int) : Except KErr Task :=
  checkConsistentTimes
    { t with due_time := none, first_started_time := none,
             last_started_time := none, last_paused_time := none,
             completed_time := none, prior_time_worked := none,
             blocked_by := none, parent := none, logs := none,
             modified_time := now }

/-!
### Serialization patches

`Board.update_with_board` replaces an entity via
`kwargs = other.to_dict(); del kwargs['uuid']; self.update_*(this_id, **kwargs)`.
`to_dict` comes from the external serialization layer
(`fancy_dataclass.JSONBaseDataclass` with `suppress_none=True`, hooked by
`Model._include_field` / `Task._include_field` in `model.py` lines 229-233
and 461-462).  Modelled from the spec: optional fields are omitted when
unset on write (spec section 6), and `Task._include_field` additionally
always includes `project_id`, even when it is `None`.  A patch therefore
carries `some v` exactly for the fields present in the kwargs dict.
-/

/-- Keyword-argument dict for `Board.update_project`: `some` = present. -/
structure ProjectPatch where
  name : Option String := none
  description : Option String := none
  created_time : Option Int := none
  modified_time : Option Int := none
  links : Option (Finset String) := none
  parent : Option Nat := none
  notes : Option (List String) := none
  extra : Option (Finset (String × String)) := none
  deriving DecidableEq

/-- Keyword-argument dict for `Board.update_task`: `some` = present.
`project_id` is doubly optional: the outer layer is presence in the dict. -/
structure TaskPatch where
  name : Option String := none
  description : Option String := none
  priority : Option ℚ := none
  expected_difficulty : Option ℚ := none
  expected_duration : Option ℚ := none
  due_time : Option Int := none
  project_id : Option (Option Nat) := none
  tags : Option (Finset String) := none
  links : Option (Finset String) := none
  created_time : Option Int := none
  modified_time : Option Int := none
  first_started_time : Option Int := none
  last_started_time : Option Int := none
  last_paused_time : Option Int := none
  completed_time : Option Int := none
  prior_time_worked : Option ℚ := none
  blocked_by : Option (Finset Nat) := none
  parent : Option Nat := none
  logs : Option (List Log) := none
  notes : Option (List String) := none
  extra : Option (Finset (String × String)) := none
  deriving DecidableEq

/-- `other_proj.to_dict()` with `uuid` deleted (merge, `model.py` 941-943):
all non-`None` fields of the project. -/
def Project.toPatch (p : Project) : ProjectPatch :=
  { name := some p.name, description := p.description,
    created_time := some p.created_time, modified_time := some p.modified_time,
    links := p.links, parent := p.parent, notes := p.notes, extra := p.extra }

/-- `other_task.to_dict()` with `uuid` deleted (merge, `model.py` 956-958):
all non-`None` fields, plus `project_id` unconditionally
(`Task._include_field`, `model.py` 461-462). -/
def Task.toPatch (t : Task) : TaskPatch :=
  { name := some t.name, description := t.description, priority := t.priority,
    expected_difficulty := t.expected_difficulty,
    expected_duration := t.expected_duration, due_time := t.due_time,
    project_id := some t.project_id, tags := t.tags, links := t.links,
    created_time := some t.created_time, modified_time := some t.modified_time,
    first_started_time := t.first_started_time,
    last_started_time := t.last_started_time,
    last_paused_time := t.last_paused_time, completed_time := t.completed_time,
    prior_time_worked := t.prior_time_worked, blocked_by := t.blocked_by,
    parent := t.parent, logs := t.logs, notes := t.notes, extra := t.extra }

/-- `Model._replace(**kwargs)` (`model.py` 256-263) applied to a project:
fields present in the kwargs dict are replaced, the rest are kept. -/
def applyProjectPatch (p : Project) (q : ProjectPatch) : Project :=
  { name := q.name.getD p.name, uuid := p.uuid,
    description := q.description.orElse (fun _ => p.description),
    created_time := q.created_time.getD p.created_time,
    modified_time := q.modified_time.getD p.modified_time,
    links := q.links.orElse (fun _ => p.links),
    parent := q.parent.orElse (fun _ => p.parent),
    notes := q.notes.orElse (fun _ => p.notes),
    extra := q.extra.orElse (fun _ => p.extra) }

/-- `Model._replace(**kwargs)` applied to a task. -/
def applyTaskPatch (t : Task) (q : TaskPatch) : Task :=
  { name := q.name.getD t.name, uuid := t.uuid,
    description := q.description.orElse (fun _ => t.description),
    priority := q.priority.orElse (fun _ => t.priority),
    expected_difficulty :=
      q.expected_difficulty.orElse (fun _ => t.expected_difficulty),
    expected_duration :=
      q.expected_duration.orElse (fun _ => t.expected_duration),
    due_time := q.due_time.orElse (fun _ => t.due_time),
    project_id := q.project_id.getD t.project_id,
    tags := q.tags.orElse (fun _ => t.tags),
    links := q.links.orElse (fun _ => t.links),
    created_time := q.created_time.getD t.created_time,
    modified_time := q.modified_time.getD t.modified_time,
    first_started_time :=
      q.first_started_time.orElse (fun _ => t.first_started_time),
    last_started_time :=
      q.last_started_time.orElse (fun _ => t.last_started_time),
    last_paused_time := q.last_paused_time.orElse (fun _ => t.last_paused_time),
    completed_time := q.completed_time.orElse (fun _ => t.completed_time),
    prior_time_worked :=
      q.prior_time_worked.orElse (fun _ => t.prior_time_worked),
    blocked_by := q.blocked_by.orElse (fun _ => t.blocked_by),
    parent := q.parent.orElse (fun _ => t.parent),
    logs := q.logs.orElse (fun _ => t.logs),
    notes := q.notes.orElse (fun _ => t.notes),
    extra := q.extra.orElse (fun _ => t.extra) }

/-!
### Python dict helpers (insertion-ordered association lists)
-/

/-- `d[k]`, as an `Option`. -/
def dictGet {α : Type} (m : List (Nat × α)) (k : Nat) : Option α :=
  (m.find? (fun p => p.1 == k)).map Prod.snd

/-- `k in d`. -/
def dictContains {α : Type} (m : List (Nat × α)) (k : Nat) : Bool :=
  m.any (fun p => p.1 == k)

/-- `d[k] = v`: overwrites in place (keeping the key's position) if the key
exists, otherwise appends, exactly like a Python dict. -/
def dictInsert {α : Type} (m : List (Nat × α)) (k : Nat) (v : α) :
    List (Nat × α) :=
  if m.any (fun p => p.1 == k) then
    m.map (fun p => if p.1 == k then (k, v) else p)
  else m ++ [(k, v)]

/-- `del d[k]` (callers check presence first). -/
def dictDel {α : Type} (m : List (Nat × α)) (k : Nat) : List (Nat × α) :=
  m.filter (fun p => p.1 != k)

/-- `new_project_id` / `new_task_id` (`model.py` 734-736, 744-746): the
smallest nonnegative integer not among the used keys.  The fuel
`ks.length + 1` suffices since the keys cannot cover `0..ks.length`. -/
def smallestFreeFrom (ks : List Nat) : Nat → Nat → Nat
  | 0, i => i
  | fuel + 1, i => if i ∈ ks then smallestFreeFrom ks fuel (i + 1) else i

def smallestFree (ks : List Nat) : Nat :=
  smallestFreeFrom ks (ks.length + 1) 0

/-!
### Name matching

`NameMatcher`, `exact_match` and `first_name_match` are imported by
`model.py` from `daikanban.utils`, but the copy of `utils.py` in `src/`
predates them and does not define them.
-/

/-- A name matcher takes the queried name and a stored name. -/
abbrev NameMatcher := String → String → Bool

/-- Modelled from the spec: `exact_match` (absent from
`src/daikanban/utils.py`), the default matcher of `get_*_by_name` —
"exact" matching is plain string equality. -/
def exactMatch : NameMatcher := fun s1 s2 => s1 == s2

/-- Modelled from the spec: `first_name_match` (absent from
`src/daikanban/utils.py`) returns the first of the stored `names` that the
queried `name` matches under `matcher`, if any ("reject a duplicate name",
spec section 4.2). -/
def firstNameMatch (matcher : NameMatcher) (name : String)
    (names : List String) : Option String :=
  names.find? (fun n => matcher name n)

/-!
### Board
-/

/-- `Board` dataclass (`model.py` 695-723).  The two uuid→id indices are
instance attributes created *empty* by `__post_init__` (lines 720-723) and
populated only by `create_*` / `delete_*`; a board deserialized from a
snapshot therefore starts with empty indices even when `projects`/`tasks`
are not empty. -/
structure Board where
  name : String
  description : Option String := none
  created_time : Option Int := none
  projects : List (Nat × Project) := []
  tasks : List (Nat × Task) := []
  version : Nat := 0
  projectUuidToId : List (Nat × Nat) := []
  taskUuidToId : List (Nat × Nat) := []
  deriving DecidableEq

namespace Board

/-- `Board._check_duplicate_project_name` (`model.py` 754-760). -/
def checkDuplicateProjectName (b : Board) (name : String)
    (matcher : NameMatcher) : Option String :=
  firstNameMatch matcher name (b.projects.map (fun p => p.2.name))

/-- `Board.create_project` (`model.py` 762-770), returning the board and
the new id. -/
def createProject (b : Board) (project : Project) (matcher : NameMatcher) :
    Except (KErr × Board) (Board × Nat) :=
  if dictContains b.projectUuidToId project.uuid then
    .error (.duplicateProject, b)
  else
    match b.checkDuplicateProjectName project.name matcher with
    | some _ => .error (.duplicateProjectName, b)
    | none =>
      let id := smallestFree (b.projects.map Prod.fst)
      .ok ({ b with projects := dictInsert b.projects id project,
                    projectUuidToId :=
                      dictInsert b.projectUuidToId project.uuid id }, id)

/-- `Board.update_project` (`model.py` 793-805).  The kwargs dict never
contains `uuid` on the paths modelled here. -/
def updateProject (b : Board) (project_id : Nat) (q : ProjectPatch)
    (matcher : NameMatcher) (now : Int) : Except (KErr × Board) Board :=
  match dictGet b.projects project_id with
  | none => .error (.projectNotFound, b)
  | some proj =>
    let dup : Bool :=
      match q.name with
      | some newName =>
        (firstNameMatch matcher newName
          ((b.projects.filter (fun p => p.1 != project_id)).map
            (fun p => p.2.name))).isSome
      | none => false
    if dup then .error (.duplicateProjectName, b)
    else
      let q := { q with modified_time := some (q.modified_time.getD now) }
      .ok { b with projects :=
              dictInsert b.projects project_id (applyProjectPatch proj q) }

/-- `Board.delete_project` (`model.py` 807-815): removes the project and
its index entry and nulls `project_id` on every referencing task.  A
missing id (or a missing index entry) raises `ProjectNotFoundError` via
`catch_key_error` before anything is mutated. -/
def deleteProject (b : Board) (project_id : Nat) :
    Except (KErr × Board) Board :=
  match dictGet b.projects project_id with
  | none => .error (.projectNotFound, b)
  | some proj =>
    if ¬ dictContains b.projectUuidToId proj.uuid then
      .error (.projectNotFound, b)
    else
      .ok { b with
        projectUuidToId := dictDel b.projectUuidToId proj.uuid,
        projects := dictDel b.projects project_id,
        tasks := b.tasks.map (fun p =>
          if p.2.project_id == some project_id then
            (p.1, { p.2 with project_id := none })
          else p) }

/-- `Board._check_duplicate_task_name` (`model.py` 817-823): only
*incomplete* tasks (no `completed_time`) are considered. -/
def checkDuplicateTaskName (b : Board) (name : String)
    (matcher : NameMatcher) : Option String :=
  firstNameMatch matcher name
    ((b.tasks.filter (fun p => p.2.completed_time.isNone)).map
      (fun p => p.2.name))

/-- `Board.create_task` (`model.py` 825-835). -/
def createTask (b : Board) (task : Task) (matcher : NameMatcher) :
    Except (KErr × Board) (Board × Nat) :=
  if dictContains b.taskUuidToId task.uuid then
    .error (.duplicateTask, b)
  else if (match task.project_id with
      | some pid => !dictContains b.projects pid
      | none => false) then
    .error (.projectNotFound, b)
  else
    match b.checkDuplicateTaskName task.name matcher with
    | some _ => .error (.duplicateTaskName, b)
    | none =>
      let id := smallestFree (b.tasks.map Prod.fst)
      .ok ({ b with tasks := dictInsert b.tasks id task,
                    taskUuidToId := dictInsert b.taskUuidToId task.uuid id },
           id)

/-- `Board.update_task` (`model.py` 872-885): rebuild the task from the
kwargs (re-running the timestamp validator), then check the project id
exists, then check for a duplicate name among the *other* incomplete
tasks, and only then commit. -/
def updateTask (b : Board) (task_id : Nat) (q : TaskPatch)
    (matcher : NameMatcher) (now : Int) : Except (KErr × Board) Board :=
  match dictGet b.tasks task_id with
  | none => .error (.taskNotFound, b)
  | some task =>
    let q := { q with modified_time := some (q.modified_time.getD now) }
    match checkConsistentTimes (applyTaskPatch task q) with
    | .error e => .error (e, b)
    | .ok task =>
      if (match task.project_id with
          | some pid => !dictContains b.projects pid
          | none => false) then
        .error (.projectNotFound, b)
      else
        let otherIncompleteNames :=
          (b.tasks.filter (fun p =>
            p.1 != task_id && p.2.completed_time.isNone)).map
              (fun p => p.2.name)
        match firstNameMatch matcher task.name otherIncompleteNames with
        | some _ => .error (.duplicateTaskName, b)
        | none => .ok { b with tasks := dictInsert b.tasks task_id task }

/-- `Board.delete_task` (`model.py` 887-891). -/
def deleteTask (b : Board) (task_id : Nat) : Except (KErr × Board) Board :=
  match dictGet b.tasks task_id with
  | none => .error (.taskNotFound, b)
  | some task =>
    if ¬ dictContains b.taskUuidToId task.uuid then
      .error (.taskNotFound, b)
    else
      .ok { b with taskUuidToId := dictDel b.taskUuidToId task.uuid,
                   tasks := dictDel b.tasks task_id }

/-- `Board._filter_id_matches` (`model.py` 777-781): keep only the exact
matches when any pair is exact. -/
def filterIdMatches (pairs : List (Nat × Bool)) : List Nat :=
  if pairs.any (fun p => p.2) then
    (pairs.filter (fun p => p.2)).map Prod.fst
  else pairs.map Prod.fst

/-- `Board.get_task_id_by_name` (`model.py` 842-870). -/
def getTaskIdByName (b : Board) (name : String)
    (matcher : NameMatcher) : Except KErr (Option Nat) :=
  let incompletePairs :=
    (b.tasks.filter (fun p =>
      matcher name p.2.name && p.2.completed_time.isNone)).map
        (fun p => (p.1, name == p.2.name))
  let completePairs :=
    (b.tasks.filter (fun p =>
      matcher name p.2.name && p.2.completed_time.isSome)).map
        (fun p => (p.1, name == p.2.name))
  let incompleteIds := filterIdMatches incompletePairs
  let completeIds := filterIdMatches completePairs
  if incompletePairs.any (fun p => p.2) then
    match incompleteIds with
    | i :: _ => .ok (some i)
    | [] => .error .pyKeyError
  else if completePairs.any (fun p => p.2) then
    if completeIds.length > 1 then .error .ambiguousTaskName
    else match completeIds with
      | i :: _ => .ok (some i)
      | [] => .error .pyKeyError
  else if !incompleteIds.isEmpty then
    if incompleteIds.length > 1 then .error .ambiguousTaskName
    else .ok incompleteIds.head?
  else if !completeIds.isEmpty then
    if completeIds.length > 1 then .error .ambiguousTaskName
    else .ok completeIds.head?
  else .ok none

/-- `Board.apply_status_action` (`model.py` 900-908): apply the transition,
then reject if the post-transition task's name *equals* (plain string
equality, not the configured matcher) the name of another incomplete task;
only then commit.  Returns the board and the new task. -/
def applyStatusAction (b : Board) (task_id : Nat) (action : TaskStatusAction)
    (dt? first_dt? : Option Int) (now : Int) :
    Except (KErr × Board) (Board × Task) :=
  match dictGet b.tasks task_id with
  | none => .error (.taskNotFound, b)
  | some t =>
    match t.applyStatusAction action dt? first_dt? now with
    | .error e => .error (e, b)
    | .ok t2 =>
      if b.tasks.any (fun p =>
          p.1 != task_id && p.2.completed_time.isNone &&
            p.2.name == t2.name) then
        .error (.duplicateTaskName, b)
      else .ok ({ b with tasks := dictInsert b.tasks task_id t2 }, t2)

end Board

/-!
### Board reconciliation (`Board.update_with_board`, `model.py` 924-966)
-/

/-- `Project._map_project_ids` (`model.py` 338-340). -/
def Project.mapProjectIds (p : Project) (m : List (Nat × Nat)) : Project :=
  match p.parent with
  | none => p
  | some par => { p with parent := some ((dictGet m par).getD par) }

/-- `Task._map_project_ids` (`model.py` 681-683). -/
def Task.mapProjectIds (t : Task) (m : List (Nat × Nat)) : Task :=
  match t.project_id with
  | none => t
  | some pid => { t with project_id := some ((dictGet m pid).getD pid) }

/-- `Task._map_task_ids` (`model.py` 685-692).  Note `if self.blocked_by:`
is Python truthiness: an *empty* `blocked_by` set is left alone. -/
def Task.mapTaskIds (t : Task) (m : List (Nat × Nat)) : Task :=
  let t1 :=
    match t.blocked_by with
    | some s =>
      if s ≠ ∅ then
        { t with blocked_by := some (s.image (fun i => (dictGet m i).getD i)) }
      else t
    | none => t
  match t1.parent with
  | none => t1
  | some par => { t1 with parent := some ((dictGet m par).getD par) }

namespace Board

/-- Body of the project loop of `update_with_board` (`model.py` 932-945).
The accumulator is the receiving board plus `proj_id_map`. -/
def mergeProjStep (matcher : NameMatcher) (now : Int)
    (acc : Board × List (Nat × Nat)) (entry : Nat × Project) :
    Except (KErr × Board) (Board × List (Nat × Nat)) :=
  let (b, pmap) := acc
  let (other_id, other_proj) := entry
  match dictGet b.projectUuidToId other_proj.uuid with
  | some this_id =>
    let pmap := if this_id != other_id then dictInsert pmap other_id this_id
                else pmap
    match dictGet b.projects this_id with
    | none => .error (.pyKeyError, b)
    | some this_proj =>
      if other_proj ≠ this_proj then
        if other_proj.modified_time > this_proj.modified_time then
          (b.updateProject this_id other_proj.toPatch matcher now).map
            (fun b2 => (b2, pmap))
        else .ok (b, pmap)
      else .ok (b, pmap)
  | none =>
    (b.createProject other_proj matcher).map
      (fun r => (r.1, dictInsert pmap other_id r.2))

/-- Body of the task loop of `update_with_board` (`model.py` 947-960). -/
def mergeTaskStep (matcher : NameMatcher) (now : Int)
    (acc : Board × List (Nat × Nat)) (entry : Nat × Task) :
    Except (KErr × Board) (Board × List (Nat × Nat)) :=
  let (b, tmap) := acc
  let (other_id, other_task) := entry
  match dictGet b.taskUuidToId other_task.uuid with
  | some this_id =>
    let tmap := if this_id != other_id then dictInsert tmap other_id this_id
                else tmap
    match dictGet b.tasks this_id with
    | none => .error (.pyKeyError, b)
    | some this_task =>
      if other_task ≠ this_task then
        if other_task.modified_time > this_task.modified_time then
          (b.updateTask this_id other_task.toPatch matcher now).map
            (fun b2 => (b2, tmap))
        else .ok (b, tmap)
      else .ok (b, tmap)
  | none =>
    (b.createTask other_task matcher).map
      (fun r => (r.1, dictInsert tmap other_id r.2))

/-- Rewriting pass over the remapped projects (`model.py` 962-963). -/
def remapProjects (b : Board) (pmap : List (Nat × Nat)) :
    Except (KErr × Board) Board :=
  pmap.foldlM (fun bb q =>
    match dictGet bb.projects q.2 with
    | none => .error (.pyKeyError, bb)
    | some p =>
      .ok { bb with projects :=
              dictInsert bb.projects q.2 (p.mapProjectIds pmap) }) b

/-- Rewriting pass over the remapped tasks (`model.py` 965-966). -/
def remapTasks (b : Board) (pmap tmap : List (Nat × Nat)) :
    Except (KErr × Board) Board :=
  tmap.foldlM (fun bb q =>
    match dictGet bb.tasks q.2 with
    | none => .error (.pyKeyError, bb)
    | some t =>
      let t2 := (t.mapProjectIds pmap).mapTaskIds tmap
      .ok { bb with tasks := dictInsert bb.tasks q.2 t2 }) b

/-- `Board.update_with_board` (`model.py` 924-966): reject a newer-versioned
source outright; merge projects, then tasks, keyed by uuid (recording an id
remap for ids that differ and for newly created entities; replacing an
existing entity via `update_*` with the incoming entity's `to_dict()` when
contents differ and the incoming `modified_time` is strictly later); then
rewrite id references through the accumulated maps. -/
def updateWithBoard (b : Board) (other : Board) (matcher : NameMatcher)
    (now : Int) : Except (KErr × Board) Board :=
  if other.version > b.version then .error (.versionMismatch, b)
  else
    match other.projects.foldlM (mergeProjStep matcher now) (b, []) with
    | .error e => .error e
    | .ok (b1, pmap) =>
      match other.tasks.foldlM (mergeTaskStep matcher now) (b1, []) with
      | .error e => .error e
      | .ok (b2, tmap) =>
        match remapProjects b2 pmap with
        | .error e => .error e
        | .ok b3 => remapTasks b3 pmap tmap

end Board

/-- Decidable equality of `Except` results, for evaluating the
operations on concrete inputs. -/
instance {ε α : Type} [DecidableEq ε] [DecidableEq α] :
    DecidableEq (Except ε α) := fun a b =>
  match a, b with
  | .error e1, .error e2 =>
    if h : e1 = e2 then .isTrue (by rw [h]) else .isFalse (by simp [h])
  | .ok a1, .ok a2 =>
    if h : a1 = a2 then .isTrue (by rw [h]) else .isFalse (by simp [h])
  | .error _, .ok _ => .isFalse (by simp)
  | .ok _, .error _ => .isFalse (by simp)

/-- The timestamp-consistency conditions as the spec words them
(spec section 4.1, "Validation"): `first_started_time ≥ created_time`;
`last_started_time` (if set) requires and is `≥ first_started_time` and is
mutually exclusive with `last_paused_time`; `last_paused_time` (if set)
requires and is `≥ first_started_time`; `completed_time` (if set) requires
and is `≥ first_started_time`, and is `≥ last_started_time` when that is
set; paused status requires `prior_time_worked` to be present. -/
def consistentTimesSpec (t : Task) : Prop :=
  (match t.first_started_time with
   | some fs => t.created_time ≤ fs
   | none => True) ∧
  (match t.last_started_time with
   | some ls =>
     (match t.first_started_time with
      | some fs => fs ≤ ls
      | none => False) ∧ t.last_paused_time = none
   | none => True) ∧
  (match t.last_paused_time with
   | some lp =>
     match t.first_started_time with
     | some fs => fs ≤ lp
     | none => False
   | none => True) ∧
  (match t.completed_time with
   | some ct =>
     (match t.first_started_time with
      | some fs => fs ≤ ct
      | none => False) ∧
     (match t.last_started_time with
      | some ls => ls ≤ ct
      | none => True)
   | none => True) ∧
  (t.status = .paused → t.prior_time_worked ≠ none)

/-!
### Candidate classes of `get_task_id_by_name`

The four candidate classes the resolution of `get_task_id_by_name` works
through, in board order: incomplete/complete matches under the matcher,
and their exact (string-equal) refinements.
-/

/-- Ids of incomplete tasks whose name matches under the matcher. -/
def incMatchIds (b : Board) (n : String) (m : NameMatcher) : List Nat :=
  (b.tasks.filter (fun p =>
    m n p.2.name && p.2.completed_time.isNone)).map Prod.fst

/-- Ids of incomplete tasks matching under the matcher whose name is
(string-)equal to the query. -/
def incExactIds (b : Board) (n : String) (m : NameMatcher) : List Nat :=
  ((b.tasks.filter (fun p =>
    m n p.2.name && p.2.completed_time.isNone)).filter (fun p =>
      n == p.2.name)).map Prod.fst

/-- Ids of completed tasks whose name matches under the matcher. -/
def comMatchIds (b : Board) (n : String) (m : NameMatcher) : List Nat :=
  (b.tasks.filter (fun p =>
    m n p.2.name && p.2.completed_time.isSome)).map Prod.fst

/-- Ids of completed tasks matching under the matcher whose name is
(string-)equal to the query. -/
def comExactIds (b : Board) (n : String) (m : NameMatcher) : List Nat :=
  ((b.tasks.filter (fun p =>
    m n p.2.name && p.2.completed_time.isSome)).filter (fun p =>
      n == p.2.name)).map Prod.fst

/-- The value actually stored when the merge "replaces" a receiver task
with an incoming one: `update_task(this_id, **other.to_dict() - uuid)`
overlays the incoming entity's *present* (non-`None`) fields on the
receiver's task — fields unset on the incoming task keep the receiver's
values (`project_id` is always present; `uuid` is preserved). -/
def mergeOverlayTask (t other : Task) : Task :=
  applyTaskPatch t other.toPatch

/-- Consistency of a board's uuid→id indices with its entity maps: every
stored entity's uuid is indexed to its own id, and looking the id back up
yields that entity.  This is the state maintained by `create_*` /
`delete_*`; a freshly deserialized board (whose indices `__post_init__`
leaves empty) does not satisfy it unless its maps are empty. -/
def BoardConsistent (b : Board) : Prop :=
  (∀ e ∈ b.projects, dictGet b.projectUuidToId e.2.uuid = some e.1 ∧
    dictGet b.projects e.1 = some e.2) ∧
  (∀ e ∈ b.tasks, dictGet b.taskUuidToId e.2.uuid = some e.1 ∧
    dictGet b.tasks e.1 = some e.2)

/-!
### Example values used by witnesses and counterexamples
-/

/-- A fresh todo task. -/
def exTask : Task :=
  { name := "alpha", uuid := 1, created_time := 0, modified_time := 0 }

/-- A paused task with `prior_time_worked` recorded. -/
def exPausedTask : Task :=
  { name := "beta", uuid := 2, created_time := 0, modified_time := 4,
    first_started_time := some 1, last_paused_time := some 4,
    prior_time_worked := some (3 / 86400) }

/-- A completed task. -/
def exCompletedTask : Task :=
  { name := "gamma", uuid := 3, created_time := 0, modified_time := 2,
    first_started_time := some 1, completed_time := some 2 }

/-- A completed task named like `exTask`. -/
def exCompletedAlpha : Task :=
  { name := "alpha", uuid := 5, created_time := 0, modified_time := 2,
    first_started_time := some 1, completed_time := some 2 }

/-- A board holding a completed task and an incomplete task that share the
name "alpha". -/
def exBoardResume : Board :=
  { name := "board", tasks := [(0, exCompletedAlpha), (1, exTask)],
    taskUuidToId := [(5, 0), (1, 1)] }

/-- The task produced by resuming (reopening) `exCompletedAlpha` at
time 5 (clock 6). -/
def exResumedAlpha : Task :=
  { name := "alpha", uuid := 5, created_time := 0, modified_time := 6,
    first_started_time := some 1, last_started_time := some 5,
    prior_time_worked := some (1 / 86400) }

/-- A task created at 2024-01-01T00:00:00Z (unix seconds). -/
def exTask2024 : Task :=
  { name := "task", uuid := 4, created_time := 1704067200,
    modified_time := 1704067200 }

/-- A board holding only the completed "alpha" task. -/
def exBoardCompleted : Board :=
  { name := "board", tasks := [(0, exCompletedAlpha)],
    taskUuidToId := [(5, 0)] }

/-- A fresh incomplete task named "alpha" with an unused uuid. -/
def exNewAlpha : Task :=
  { name := "alpha", uuid := 9, created_time := 3, modified_time := 3 }

/-- Two distinct incomplete tasks that share the name "x". -/
def exTaskX1 : Task :=
  { name := "x", uuid := 11, created_time := 0, modified_time := 0 }

def exTaskX2 : Task :=
  { name := "x", uuid := 12, created_time := 0, modified_time := 0 }

/-- A board with two identically-named incomplete tasks (constructible
directly, as the `Board` constructor validates no name uniqueness). -/
def exBoardDup : Board :=
  { name := "board", tasks := [(0, exTaskX1), (1, exTaskX2)] }

/-- Receiver-side task for the merge examples: has a description, older
modification time. -/
def exMergeThis : Task :=
  { name := "alpha", uuid := 10, description := some "d",
    created_time := 0, modified_time := 1 }

/-- Incoming task with the same uuid: renamed, *no* description, newer
modification time. -/
def exMergeOther : Task :=
  { name := "beta", uuid := 10, created_time := 0, modified_time := 5 }

/-- What the merge stores: the incoming name and modification time, but
the *receiver's* description, which the incoming entity left unset. -/
def exMergeResult : Task :=
  { name := "beta", uuid := 10, description := some "d",
    created_time := 0, modified_time := 5 }

def exBoardThis : Board :=
  { name := "board", tasks := [(0, exMergeThis)], taskUuidToId := [(10, 0)] }

def exBoardOther : Board :=
  { name := "other", tasks := [(0, exMergeOther)], taskUuidToId := [(10, 0)] }

def exBoardThisMerged : Board :=
  { name := "board", tasks := [(0, exMergeResult)],
    taskUuidToId := [(10, 0)] }

/-- Tasks for the partial-merge counterexample. -/
def exTaskBeta : Task :=
  { name := "beta", uuid := 2, created_time := 0, modified_time := 0 }

def exTaskAlpha2 : Task :=
  { name := "alpha", uuid := 3, created_time := 0, modified_time := 0 }

/-- Receiver: one incomplete task "alpha". -/
def exBoardC5 : Board :=
  { name := "board", tasks := [(0, exTask)], taskUuidToId := [(1, 0)] }

/-- Source: a fresh "beta" first, then a fresh second "alpha" whose
creation will fail the duplicate-name check. -/
def exBoardC5Other : Board :=
  { name := "other", tasks := [(0, exTaskBeta), (1, exTaskAlpha2)],
    taskUuidToId := [(2, 0), (3, 1)] }

/-- The receiver's state when the merge raises: "beta" was already
created. -/
def exBoardC5Partial : Board :=
  { name := "board", tasks := [(0, exTask), (1, exTaskBeta)],
    taskUuidToId := [(1, 0), (2, 1)] }

/-- A (hypothetical) newer-schema board, for the version-mismatch path. -/
def exBoardV1 : Board :=
  { name := "v1", version := 1 }

/-- An example project. -/
def exProject : Project :=
  { name := "proj", uuid := 7, created_time := 0, modified_time := 0 }

/-- A consistent board: one project and one task, indices in sync. -/
def exBoardClone : Board :=
  { name := "board", projects := [(0, exProject)], tasks := [(0, exTask)],
    projectUuidToId := [(7, 0)], taskUuidToId := [(1, 0)] }

/-- A board holding a completed task whose uuid indices are empty, as they
are on any board deserialized from a snapshot (`__post_init__`,
`model.py` 720-723, creates them empty and nothing rebuilds them). -/
def exBoardNoIndex : Board :=
  { name := "board", tasks := [(0, exCompletedAlpha)] }

/-- What merging `exBoardNoIndex`'s exact clone into it produces: the
completed task is not found in the (empty) uuid index, so it is re-created
under the fresh id 1 — a duplicate entity. -/
def exBoardNoIndexMerged : Board :=
  { name := "board", tasks := [(0, exCompletedAlpha), (1, exCompletedAlpha)],
    taskUuidToId := [(5, 1)] }

/-!
## C1 — derived status
-/

/-- C1: a task's derived status is a pure function of
(`first_started_time`, `last_started_time`, `last_paused_time`,
`completed_time`), computed in the precedence order: todo when
`first_started_time` is unset; otherwise paused when `last_paused_time` is
set; otherwise complete when `completed_time` is set; otherwise active.
No other field affects the status (in particular any two tasks agreeing on
those four fields have the same status). -/
theorem C1_status_pure_function :
    (∀ t : Task, t.first_started_time = none → t.status = .todo) ∧
    (∀ t : Task, t.first_started_time ≠ none → t.last_paused_time ≠ none →
      t.status = .paused) ∧
    (∀ t : Task, t.first_started_time ≠ none → t.last_paused_time = none →
      t.completed_time ≠ none → t.status = .complete) ∧
    (∀ t : Task, t.first_started_time ≠ none → t.last_paused_time = none →
      t.completed_time = none → t.status = .active) ∧
    (∀ t t' : Task,
      t.first_started_time = t'.first_started_time →
      t.last_started_time = t'.last_started_time →
      t.last_paused_time = t'.last_paused_time →
      t.completed_time = t'.completed_time →
      t.status = t'.status) := by
  refine ⟨?_, ?_, ?_, ?_, ?_⟩
  · intro t h; simp [Task.status, h]
  · intro t h1 h2; simp [Task.status, h1, h2]
  · intro t h1 h2 h3; simp [Task.status, h1, h2, h3]
  · intro t h1 h2 h3; simp [Task.status, h1, h2, h3]
  · intro t t' h1 _ h3 h4
    simp only [Task.status, h1, h3, h4]

/-- Witness for C1 at concrete tasks. -/
theorem C1_status_pure_function_witness :
    exTask.status = .todo ∧ exPausedTask.status = .paused ∧
      exCompletedTask.status = .complete ∧
      ({ exTask with name := "other", priority := some 3 : Task }).status =
        exTask.status :=
  ⟨C1_status_pure_function.1 exTask rfl,
   C1_status_pure_function.2.1 exPausedTask (by decide) (by decide),
   C1_status_pure_function.2.2.1 exCompletedTask (by decide) (by decide)
     (by decide),
   C1_status_pure_function.2.2.2.2 _ exTask rfl rfl rfl rfl⟩

/-!
## C2 — timestamp validator
-/

/-- C2: the validator `check_consistent_times` rejects — with an
`InconsistentTimestampError`, never a silent coercion (on success the task
is returned unchanged) — exactly the timestamp combinations violating the
spec's consistency conditions (`consistentTimesSpec`). -/
theorem C2_validator_exact (t : Task) :
    (checkConsistentTimes t = .ok t ↔ consistentTimesSpec t) ∧
    (¬ consistentTimesSpec t →
      checkConsistentTimes t = .error .inconsistentTimestamp) := by
  have key : checkConsistentTimes t = .ok t ↔ consistentTimesSpec t := by
    unfold checkConsistentTimes consistentTimesSpec Task.status
    rcases hf : t.first_started_time with _ | fs <;>
      rcases hl : t.last_started_time with _ | ls <;>
        rcases hp : t.last_paused_time with _ | lp <;>
          rcases hc : t.completed_time with _ | ct <;>
            rcases hw : t.prior_time_worked with _ | w <;>
              simp [hf, hl, hp, hc, hw] <;> split_ifs <;>
                simp_all <;> omega
  have disj : checkConsistentTimes t = .ok t ∨
      checkConsistentTimes t = .error .inconsistentTimestamp := by
    unfold checkConsistentTimes
    split_ifs <;> simp
  refine ⟨key, fun hn => ?_⟩
  rcases disj with h | h
  · exact absurd (key.mp h) hn
  · exact h

/-- Witness for C2: a consistent paused task is accepted unchanged, and a
task with a `last_started_time` but no `first_started_time` is rejected
with an `InconsistentTimestampError`. -/
theorem C2_validator_exact_witness :
    checkConsistentTimes exPausedTask = .ok exPausedTask ∧
      checkConsistentTimes { exTask with last_started_time := some 5 } =
        .error .inconsistentTimestamp :=
  ⟨(C2_validator_exact exPausedTask).1.mpr
     (by refine ⟨by norm_num [exPausedTask], trivial,
           by norm_num [exPausedTask], trivial, fun _ => ?_⟩
         simp [exPausedTask]),
   (C2_validator_exact _).2 (by simp [consistentTimesSpec, exTask])⟩

/-!
## C8 — reset
-/

/-- Counterexample to C8: a task already in todo status carrying a
`due_time` is *not* returned equal by `reset()` — `due_time` is in
`Task.RESET_FIELDS` and is cleared (and `modified_time` is refreshed). -/
theorem C8_reset_cex :
    ({ exTask with due_time := some 5 : Task }).status = .todo ∧
      Task.reset { exTask with due_time := some 5 } 0 ≠
        .ok { exTask with due_time := some 5 } ∧
      Task.reset { exTask with due_time := some 5 } 0 = .ok exTask := by
  refine ⟨rfl, ?_, rfl⟩
  intro h
  have := (Except.ok.injEq _ _).mp h
  exact absurd (congrArg Task.due_time this) (by simp [exTask])

/-- C8 (amended): `reset` always succeeds, yielding a todo task; it clears
exactly `due_time`, the four progress timestamps, `prior_time_worked`,
`blocked_by`, `parent` and `logs`, refreshes `modified_time`, and preserves
every other field (identity, name, creation metadata).  At a fixed
evaluation time it is idempotent, and it returns a value equal to the
original precisely on a (valid) todo task whose reset fields are already
clear and whose `modified_time` equals the evaluation time. -/
theorem C8_reset_amended (t : Task) (now : Int) :
    t.reset now =
      .ok { t with due_time := none, first_started_time := none,
                   last_started_time := none, last_paused_time := none,
                   completed_time := none, prior_time_worked := none,
                   blocked_by := none, parent := none, logs := none,
                   modified_time := now } ∧
    (t.reset now).bind (fun r => r.reset now) = t.reset now ∧
    (t.reset now).map Task.status = .ok .todo ∧
    (consistentTimesSpec t → t.status = .todo → t.due_time = none →
      t.blocked_by = none → t.parent = none → t.logs = none →
      t.prior_time_worked = none → t.modified_time = now →
      t.reset now = .ok t) := by
  have hmain : t.reset now =
      .ok { t with due_time := none, first_started_time := none,
                   last_started_time := none, last_paused_time := none,
                   completed_time := none, prior_time_worked := none,
                   blocked_by := none, parent := none, logs := none,
                   modified_time := now } := rfl
  refine ⟨hmain, ?_, ?_, ?_⟩
  · rw [hmain]; rfl
  · rw [hmain]; rfl
  · intro hspec htodo hdue hbb hpar hlogs hprior hmod
    have hfs : t.first_started_time = none := by
      by_contra hfs
      unfold Task.status at htodo
      rw [if_neg hfs] at htodo
      by_cases hp : t.last_paused_time ≠ none
      · rw [if_pos hp] at htodo; exact TaskStatus.noConfusion htodo
      · rw [if_neg hp] at htodo
        by_cases hc : t.completed_time ≠ none
        · rw [if_pos hc] at htodo; exact TaskStatus.noConfusion htodo
        · rw [if_neg hc] at htodo; exact TaskStatus.noConfusion htodo
    obtain ⟨_, hls', hlp', hct', _⟩ := hspec
    have hls : t.last_started_time = none := by
      rcases h : t.last_started_time with _ | ls
      · rfl
      · rw [h] at hls'; rw [hfs] at hls'; simp at hls'
    have hlp : t.last_paused_time = none := by
      rcases h : t.last_paused_time with _ | lp
      · rfl
      · rw [h] at hlp'; rw [hfs] at hlp'; simp at hlp'
    have hct : t.completed_time = none := by
      rcases h : t.completed_time with _ | ct
      · rfl
      · rw [h] at hct'; rw [hfs] at hct'; simp at hct'
    rw [hmain]
    rcases t with ⟨⟩
    simp_all

/-- Witness for C8 at a started task: reset returns it to the fresh todo
value, and reset on the already-todo result is the identity. -/
theorem C8_reset_amended_witness :
    Task.reset { exTask with first_started_time := some 3,
                             last_started_time := some 4,
                             modified_time := 9 } 0 = .ok exTask ∧
      Task.reset exTask 0 = .ok exTask := by
  constructor
  · exact (C8_reset_amended _ 0).1
  · exact (C8_reset_amended exTask 0).2.2.2
      ⟨trivial, trivial, trivial, trivial, fun h => absurd h (by decide)⟩
      rfl rfl rfl rfl rfl rfl rfl

/-!
## C9 — start before creation time
-/

/-- Counterexample to C9: starting a todo task at 2023-12-31 (before its
2024-01-01 creation) raises a `TaskStatusError`
(`model.py` 602-604), not the `InconsistentTimestampError` the claim
names. -/
theorem C9_start_error_cex :
    exTask2024.status = .todo ∧
      exTask2024.started (some 1703980800) 1704153600 =
        .error .taskStatus ∧
      exTask2024.started (some 1703980800) 1704153600 ≠
        .error .inconsistentTimestamp := by
  refine ⟨rfl, rfl, ?_⟩
  intro h
  exact absurd ((Except.error.injEq _ _).mp (rfl.trans h)) (by decide)

/-- C9 (amended): for a todo task, starting with an explicit datetime
earlier than `created_time` fails — with a `TaskStatusError` — and
produces no new task value. -/
theorem C9_start_before_creation (t : Task) (dt now : Int)
    (h1 : t.status = .todo) (h2 : dt < t.created_time) :
    t.started (some dt) now = .error .taskStatus := by
  simp [Task.started, h1, h2]

/-- Witness for C9 at the 2024-01-01 task. -/
theorem C9_start_before_creation_witness :
    exTask2024.started (some 1703980800) 1704153600 =
      .error .taskStatus :=
  C9_start_before_creation exTask2024 1703980800 1704153600 rfl
    (by norm_num [exTask2024])

/-!
## C6 — `create_task` duplicate-name rejection
-/

/-- `checkDuplicateTaskName` finds a duplicate iff some incomplete task's
name matches the queried name under the matcher. -/
theorem checkDuplicateTaskName_isSome_iff (b : Board) (n : String)
    (matcher : NameMatcher) :
    (b.checkDuplicateTaskName n matcher).isSome = true ↔
      ∃ p ∈ b.tasks, p.2.completed_time = none ∧ matcher n p.2.name = true := by
  unfold Board.checkDuplicateTaskName firstNameMatch
  rw [List.find?_isSome]
  constructor
  · rintro ⟨x, hx, hmx⟩
    rw [List.mem_map] at hx
    obtain ⟨p, hp, hpx⟩ := hx
    rw [List.mem_filter] at hp
    exact ⟨p, hp.1, Option.isNone_iff_eq_none.mp hp.2, by rw [hpx]; exact hmx⟩
  · rintro ⟨p, hp, hc, hm⟩
    exact ⟨p.2.name,
      List.mem_map.mpr ⟨p, List.mem_filter.mpr
        ⟨hp, Option.isNone_iff_eq_none.mpr hc⟩, rfl⟩, hm⟩

/-- C6: provided the new task's uuid is fresh and its `project_id` (when
set) exists — the checks `create_task` performs first —
`Board.create_task` raises a `DuplicateTaskNameError` (leaving the board
unchanged) exactly when the new name matches, under the active matcher,
the name of some *incomplete* task; otherwise the task is inserted under a
fresh id.  In particular a name matching only completed tasks is
accepted. -/
theorem C6_create_task_duplicate_name (b : Board) (t : Task)
    (matcher : NameMatcher)
    (huuid : dictContains b.taskUuidToId t.uuid = false)
    (hproj : ∀ pid, t.project_id = some pid →
      dictContains b.projects pid = true) :
    (b.createTask t matcher = .error (.duplicateTaskName, b) ↔
      ∃ p ∈ b.tasks, p.2.completed_time = none ∧
        matcher t.name p.2.name = true) ∧
    ((¬ ∃ p ∈ b.tasks, p.2.completed_time = none ∧
        matcher t.name p.2.name = true) →
      b.createTask t matcher =
        .ok ({ b with
                tasks := dictInsert b.tasks (smallestFree
                  (b.tasks.map Prod.fst)) t,
                taskUuidToId := dictInsert b.taskUuidToId t.uuid
                  (smallestFree (b.tasks.map Prod.fst)) },
             smallestFree (b.tasks.map Prod.fst))) := by
  have hp2 : (match t.project_id with
      | some pid => !dictContains b.projects pid
      | none => false) = false := by
    rcases h : t.project_id with _ | pid
    · rfl
    · simp [hproj pid h]
  unfold Board.createTask
  rw [huuid, hp2]
  simp only [Bool.false_eq_true, if_false]
  rcases hd : b.checkDuplicateTaskName t.name matcher with _ | nm
  · have : ¬ ∃ p ∈ b.tasks, p.2.completed_time = none ∧
        matcher t.name p.2.name = true := by
      rw [← checkDuplicateTaskName_isSome_iff b t.name matcher, hd]
      simp
    constructor
    · simp only [this, iff_false]
      intro h
      exact Except.noConfusion h
    · intro _; rfl
  · have : ∃ p ∈ b.tasks, p.2.completed_time = none ∧
        matcher t.name p.2.name = true := by
      rw [← checkDuplicateTaskName_isSome_iff b t.name matcher, hd]
      rfl
    exact ⟨by simp [this], fun hn => absurd this hn⟩

/-- Witness for C6: creating a second incomplete "alpha" on a board that
already holds an incomplete "alpha" fails with the duplicate-name error,
while creating it on a board whose only "alpha" is completed succeeds. -/
theorem C6_create_task_duplicate_name_witness :
    exBoardResume.createTask exNewAlpha exactMatch =
      .error (.duplicateTaskName, exBoardResume) ∧
    exBoardCompleted.createTask exNewAlpha exactMatch =
      .ok ({ exBoardCompleted with
              tasks := dictInsert exBoardCompleted.tasks 1 exNewAlpha,
              taskUuidToId :=
                dictInsert exBoardCompleted.taskUuidToId 9 1 }, 1) :=
  ⟨(C6_create_task_duplicate_name exBoardResume exNewAlpha exactMatch rfl
      (fun pid h => Option.noConfusion h)).1.mpr
    ⟨(1, exTask), by decide, rfl, rfl⟩,
   (C6_create_task_duplicate_name exBoardCompleted exNewAlpha exactMatch rfl
      (fun pid h => Option.noConfusion h)).2 (by decide)⟩

/-!
## C7 — name resolution of `get_task_id_by_name`
-/

/-- `List.any` over a mapped list (general version). -/
theorem list_any_map {α β : Type} (f : α → β) (p : β → Bool) (l : List α) :
    (l.map f).any p = l.any (fun a => p (f a)) := by
  induction l with
  | nil => rfl
  | cons x xs ih => simp [List.any, ih]

/-- `_filter_id_matches` over a pair list built from tasks: keep the exact
ids when an exact match exists, otherwise all ids. -/
theorem filterIdMatches_map (l : List (Nat × Task)) (n : String) :
    Board.filterIdMatches (l.map (fun p => (p.1, n == p.2.name))) =
      if l.any (fun p => n == p.2.name) then
        (l.filter (fun p => n == p.2.name)).map Prod.fst
      else l.map Prod.fst := by
  unfold Board.filterIdMatches
  simp only [list_any_map, List.filter_map, List.map_map]
  rfl

/-- A filtered list is nonempty iff some element satisfies the filter. -/
theorem any_eq_filter_ne_nil (l : List (Nat × Task)) (e : Nat × Task → Bool) :
    (l.any e = true) ↔ l.filter e ≠ [] := by
  rw [List.any_eq_true, Ne, List.filter_eq_nil_iff]
  push_neg
  simp

/-- Counterexample to C7: on a board carrying two identically-named
incomplete tasks, both of which match the query exactly (two qualifying
matches with no single winner), `get_task_id_by_name` returns the first id
instead of raising the ambiguity error the claim requires. -/
theorem C7_name_resolution_cex :
    incExactIds exBoardDup "x" exactMatch = [0, 1] ∧
      exBoardDup.getTaskIdByName "x" exactMatch = .ok (some 0) ∧
      exBoardDup.getTaskIdByName "x" exactMatch ≠
        .error .ambiguousTaskName := by
  have h0 : exBoardDup.getTaskIdByName "x" exactMatch = .ok (some 0) := by
    decide
  refine ⟨by decide, h0, ?_⟩
  intro h
  rw [h0] at h
  exact Except.noConfusion h

/-- If the exact refinement of a class is empty, no element matches
exactly. -/
theorem exact_nil_any_false (L : List (Nat × Task)) (e : Nat × Task → Bool)
    (h : (L.filter e).map Prod.fst = []) : L.any e = false := by
  rcases hf : L.filter e with _ | ⟨x, xs⟩
  · cases hb : L.any e
    · rfl
    · exact absurd hf ((any_eq_filter_ne_nil L e).mp hb)
  · rw [hf] at h; exact List.noConfusion h

/-- If the exact refinement of a class is nonempty, some element matches
exactly. -/
theorem exact_cons_any_true (L : List (Nat × Task)) (e : Nat × Task → Bool)
    (i : Nat) (rest : List Nat)
    (h : (L.filter e).map Prod.fst = i :: rest) : L.any e = true := by
  apply (any_eq_filter_ne_nil L e).mpr
  intro hf; rw [hf] at h; exact List.noConfusion h

/-- C7 (amended): `get_task_id_by_name` resolves through four candidate
classes — exact incomplete, exact complete, fuzzy incomplete, fuzzy
complete — an exact match always outranking a fuzzy one and, within the
same exactness, an incomplete match outranking a complete-only one.  The
single candidate of the first nonempty class is returned; a class holding
more than one candidate raises the ambiguity error — *except* the
exact-incomplete class, whose first candidate is returned without any
ambiguity check; no match returns nothing. -/
theorem C7_name_resolution_amended (b : Board) (n : String)
    (m : NameMatcher) :
    (∀ i rest, incExactIds b n m = i :: rest →
      b.getTaskIdByName n m = .ok (some i)) ∧
    (incExactIds b n m = [] → ∀ i, comExactIds b n m = [i] →
      b.getTaskIdByName n m = .ok (some i)) ∧
    (incExactIds b n m = [] → (comExactIds b n m).length > 1 →
      b.getTaskIdByName n m = .error .ambiguousTaskName) ∧
    (incExactIds b n m = [] → comExactIds b n m = [] →
      (∀ i, incMatchIds b n m = [i] →
        b.getTaskIdByName n m = .ok (some i)) ∧
      ((incMatchIds b n m).length > 1 →
        b.getTaskIdByName n m = .error .ambiguousTaskName) ∧
      (incMatchIds b n m = [] →
        (∀ i, comMatchIds b n m = [i] →
          b.getTaskIdByName n m = .ok (some i)) ∧
        ((comMatchIds b n m).length > 1 →
          b.getTaskIdByName n m = .error .ambiguousTaskName) ∧
        (comMatchIds b n m = [] → b.getTaskIdByName n m = .ok none))) := by
  have hIds := filterIdMatches_map
    (b.tasks.filter (fun p => m n p.2.name && p.2.completed_time.isNone)) n
  have hIds2 := filterIdMatches_map
    (b.tasks.filter (fun p => m n p.2.name && p.2.completed_time.isSome)) n
  have hEI : ((b.tasks.filter (fun p =>
      m n p.2.name && p.2.completed_time.isNone)).filter (fun p =>
        n == p.2.name)).map Prod.fst = incExactIds b n m := rfl
  have hAI : (b.tasks.filter (fun p =>
      m n p.2.name && p.2.completed_time.isNone)).map Prod.fst =
        incMatchIds b n m := rfl
  have hEC : ((b.tasks.filter (fun p =>
      m n p.2.name && p.2.completed_time.isSome)).filter (fun p =>
        n == p.2.name)).map Prod.fst = comExactIds b n m := rfl
  have hAC : (b.tasks.filter (fun p =>
      m n p.2.name && p.2.completed_time.isSome)).map Prod.fst =
        comMatchIds b n m := rfl
  refine ⟨?_, ?_, ?_, ?_⟩
  · -- first exact incomplete candidate returned
    intro i rest hcons
    have hFe := exact_cons_any_true _ _ i rest (hEI.trans hcons)
    unfold Board.getTaskIdByName
    simp only [list_any_map, hIds, hIds2, hFe, if_true]
    rw [hEI, hcons]
  · -- unique exact complete candidate returned
    intro hnilEI i hEC1
    have hFe := exact_nil_any_false _ _ (hEI.trans hnilEI)
    have hGe := exact_cons_any_true _ _ i [] (hEC.trans hEC1)
    unfold Board.getTaskIdByName
    simp only [list_any_map, hIds, hIds2, hFe, hGe, if_true,
      Bool.false_eq_true, if_false]
    rw [hEC, hEC1]
    simp
  · -- several exact complete candidates: ambiguity
    intro hnilEI hlen
    have hFe := exact_nil_any_false _ _ (hEI.trans hnilEI)
    have hGe : (b.tasks.filter (fun p =>
        m n p.2.name && p.2.completed_time.isSome)).any (fun p =>
          n == p.2.name) = true := by
      rcases h : comExactIds b n m with _ | ⟨i, rest⟩
      · rw [h] at hlen; simp at hlen
      · exact exact_cons_any_true _ _ i rest (hEC.trans h)
    unfold Board.getTaskIdByName
    simp only [list_any_map, hIds, hIds2, hFe, hGe, if_true,
      Bool.false_eq_true, if_false]
    rw [hEC]
    simp [hlen]
  · -- no exact match at all: fuzzy incomplete, then fuzzy complete
    intro hnilEI hnilEC
    have hFe := exact_nil_any_false _ _ (hEI.trans hnilEI)
    have hGe := exact_nil_any_false _ _ (hEC.trans hnilEC)
    refine ⟨?_, ?_, ?_⟩
    · intro i hAI1
      unfold Board.getTaskIdByName
      simp only [list_any_map, hIds, hIds2, hFe, hGe, Bool.false_eq_true,
        if_false]
      rw [hAI, hAI1]
      simp
    · intro hlen
      have hne : (incMatchIds b n m).isEmpty = false := by
        rcases h : incMatchIds b n m with _ | ⟨i, rest⟩
        · rw [h] at hlen; simp at hlen
        · rfl
      unfold Board.getTaskIdByName
      simp only [list_any_map, hIds, hIds2, hFe, hGe, Bool.false_eq_true,
        if_false]
      rw [hAI]
      simp [hne, hlen]
    · intro hnilAI
      refine ⟨?_, ?_, ?_⟩
      · intro i hAC1
        unfold Board.getTaskIdByName
        simp only [list_any_map, hIds, hIds2, hFe, hGe, Bool.false_eq_true,
          if_false]
        rw [hAI, hAC, hnilAI, hAC1]
        simp
      · intro hlen
        have hne : (comMatchIds b n m).isEmpty = false := by
          rcases h : comMatchIds b n m with _ | ⟨i, rest⟩
          · rw [h] at hlen; simp at hlen
          · rfl
        unfold Board.getTaskIdByName
        simp only [list_any_map, hIds, hIds2, hFe, hGe, Bool.false_eq_true,
          if_false]
        rw [hAI, hAC, hnilAI]
        simp [hne, hlen]
      · intro hnilAC
        unfold Board.getTaskIdByName
        simp only [list_any_map, hIds, hIds2, hFe, hGe, Bool.false_eq_true,
          if_false]
        rw [hAI, hAC, hnilAI, hnilAC]
        simp

/-- Witness for C7: the incomplete "alpha" outranks the completed one on
`exBoardResume`; the sole completed exact "alpha" is found on
`exBoardCompleted`; an unknown name resolves to nothing. -/
theorem C7_name_resolution_amended_witness :
    exBoardResume.getTaskIdByName "alpha" exactMatch = .ok (some 1) ∧
      exBoardCompleted.getTaskIdByName "alpha" exactMatch = .ok (some 0) ∧
      exBoardCompleted.getTaskIdByName "zzz" exactMatch = .ok none :=
  ⟨(C7_name_resolution_amended exBoardResume "alpha" exactMatch).1 1 []
     (by decide),
   (C7_name_resolution_amended exBoardCompleted "alpha" exactMatch).2.1
     (by decide) 0 (by decide),
   ((((C7_name_resolution_amended exBoardCompleted "zzz" exactMatch).2.2.2
     (by decide) (by decide)).2.2 (by decide)).2.2 (by decide))⟩

/-!
## C10 — `apply_status_action` duplicate-name rejection
-/

/-- C10: whenever the post-transition task's name equals the name of
another (different id) incomplete task on the board,
`Board.apply_status_action` raises a `DuplicateTaskNameError` and leaves
the board unchanged — in particular resuming a completed task whose name
is borne by an incomplete task fails. -/
theorem C10_apply_status_action_duplicate (b : Board) (task_id : Nat)
    (action : TaskStatusAction) (dt? first_dt? : Option Int) (now : Int)
    (t t2 : Task)
    (hget : dictGet b.tasks task_id = some t)
    (happ : t.applyStatusAction action dt? first_dt? now = .ok t2)
    (hdup : ∃ p ∈ b.tasks, p.1 ≠ task_id ∧ p.2.completed_time = none ∧
      p.2.name = t2.name) :
    b.applyStatusAction task_id action dt? first_dt? now =
      .error (.duplicateTaskName, b) := by
  unfold Board.applyStatusAction
  simp only [hget]
  rw [happ]
  obtain ⟨p, hp, h1, h2, h3⟩ := hdup
  have hany : b.tasks.any (fun p =>
      p.1 != task_id && p.2.completed_time.isNone &&
        p.2.name == t2.name) = true :=
    List.any_eq_true.mpr ⟨p, hp, by simp [h1, h2, h3]⟩
  simp [hany]

/-- Witness for C10: on `exBoardResume`, resuming the completed "alpha"
task clashes with the incomplete "alpha" task. -/
theorem C10_apply_status_action_duplicate_witness :
    exBoardResume.applyStatusAction 0 .resume (some 5) none 6 =
      .error (.duplicateTaskName, exBoardResume) :=
  C10_apply_status_action_duplicate exBoardResume 0 .resume (some 5) none 6
    exCompletedAlpha exResumedAlpha rfl
    (by simp [Task.applyStatusAction, Task.resumed, exCompletedAlpha,
          exResumedAlpha, Task.status, Task.totalTimeWorked,
          durationBetween, checkConsistentTimes])
    ⟨(1, exTask), by decide, by decide, rfl, rfl⟩

/-!
## C4 — merging an exact clone
-/

/-- The project loop of the merge is a no-op when every incoming entry is
already stored under the same id with the same contents (as holds for a
clone of a consistent board). -/
theorem mergeProj_clone_noop (matcher : NameMatcher) (now : Int) (b : Board)
    (l : List (Nat × Project))
    (hl : ∀ e ∈ l, dictGet b.projectUuidToId e.2.uuid = some e.1 ∧
      dictGet b.projects e.1 = some e.2) :
    l.foldlM (Board.mergeProjStep matcher now) (b, ([] : List (Nat × Nat)))
      = .ok (b, []) := by
  induction l with
  | nil => rfl
  | cons x xs ih =>
    obtain ⟨h1, h2⟩ := hl x (List.mem_cons_self x xs)
    have step : Board.mergeProjStep matcher now (b, []) x = .ok (b, []) := by
      obtain ⟨oid, op⟩ := x
      simp only [Board.mergeProjStep] at h1 h2 ⊢
      simp [h1, h2]
    have hexp : (x :: xs).foldlM (Board.mergeProjStep matcher now)
        (b, ([] : List (Nat × Nat))) =
          (Board.mergeProjStep matcher now (b, []) x) >>=
            (fun acc => xs.foldlM (Board.mergeProjStep matcher now) acc) :=
      rfl
    rw [hexp, step]
    exact ih (fun e he => hl e (List.mem_cons_of_mem x he))

/-- The task loop of the merge is a no-op under the same conditions. -/
theorem mergeTask_clone_noop (matcher : NameMatcher) (now : Int) (b : Board)
    (l : List (Nat × Task))
    (hl : ∀ e ∈ l, dictGet b.taskUuidToId e.2.uuid = some e.1 ∧
      dictGet b.tasks e.1 = some e.2) :
    l.foldlM (Board.mergeTaskStep matcher now) (b, ([] : List (Nat × Nat)))
      = .ok (b, []) := by
  induction l with
  | nil => rfl
  | cons x xs ih =>
    obtain ⟨h1, h2⟩ := hl x (List.mem_cons_self x xs)
    have step : Board.mergeTaskStep matcher now (b, []) x = .ok (b, []) := by
      obtain ⟨oid, ot⟩ := x
      simp only [Board.mergeTaskStep] at h1 h2 ⊢
      simp [h1, h2]
    have hexp : (x :: xs).foldlM (Board.mergeTaskStep matcher now)
        (b, ([] : List (Nat × Nat))) =
          (Board.mergeTaskStep matcher now (b, []) x) >>=
            (fun acc => xs.foldlM (Board.mergeTaskStep matcher now) acc) :=
      rfl
    rw [hexp, step]
    exact ih (fun e he => hl e (List.mem_cons_of_mem x he))

/-- Counterexample to C4: on a board whose uuid indices are empty — the
state of every board deserialized from a snapshot, since `__post_init__`
creates the indices empty and nothing rebuilds them — merging an exact
clone of the board into itself is *not* a no-op: the completed task is not
found in the empty index and is re-created under a fresh id, duplicating
the entity. -/
theorem C4_clone_merge_cex :
    Board.updateWithBoard exBoardNoIndex exBoardNoIndex exactMatch 100 =
      .ok exBoardNoIndexMerged ∧ exBoardNoIndexMerged ≠ exBoardNoIndex := by
  constructor
  · decide
  · intro h
    exact absurd (congrArg (fun bb => bb.tasks.length) h) (by decide)

/-- C4 (amended): provided the board's uuid→id indices are consistent with
its entity maps (`BoardConsistent`, the state maintained by
`create_*`/`delete_*`), merging an exact clone of the board into itself is
a no-op: every uuid is found under the same id with equal contents, so no
entity is replaced, created, or remapped. -/
theorem C4_clone_merge_noop (b : Board) (matcher : NameMatcher) (now : Int)
    (hcons : BoardConsistent b) :
    b.updateWithBoard b matcher now = .ok b := by
  obtain ⟨hp, ht⟩ := hcons
  unfold Board.updateWithBoard
  rw [if_neg (lt_irrefl b.version)]
  simp only [mergeProj_clone_noop matcher now b b.projects hp,
    mergeTask_clone_noop matcher now b b.tasks ht]
  rfl

/-- Witness for C4 on a concrete consistent board. -/
theorem C4_clone_merge_noop_witness :
    Board.updateWithBoard exBoardClone exBoardClone exactMatch 100 =
      .ok exBoardClone :=
  C4_clone_merge_noop exBoardClone exactMatch 100 ⟨by decide, by decide⟩

/-!
## C3 — whole-entity last-writer-wins?
-/

/-- The timestamp validator never alters the task it accepts. -/
theorem checkConsistentTimes_ok (u v : Task)
    (h : checkConsistentTimes u = .ok v) : v = u := by
  unfold checkConsistentTimes at h
  split_ifs at h
  first
  | exact Except.noConfusion h
  | injection h with h
    exact h.symm

/-- Shape of a successful `update_task`: the stored replacement is the
patch (with its `modified_time` defaulted to `now`) applied to the looked
up task. -/
theorem updateTask_ok (b : Board) (tid : Nat) (q : TaskPatch)
    (matcher : NameMatcher) (now : Int) (t : Task) (b2 : Board)
    (ht : dictGet b.tasks tid = some t)
    (h : Board.updateTask b tid q matcher now = .ok b2) :
    b2 = { b with tasks := dictInsert b.tasks tid (applyTaskPatch t
      { q with modified_time := some (q.modified_time.getD now) }) } := by
  unfold Board.updateTask at h
  simp only [ht] at h
  rcases hchk : checkConsistentTimes (applyTaskPatch t
      { q with modified_time := some (q.modified_time.getD now) })
    with e | t2
  · simp only [hchk] at h
    exact Except.noConfusion h
  · simp only [hchk] at h
    split_ifs at h
    split at h
    · exact Except.noConfusion h
    · injection h with h
      rw [← h, checkConsistentTimes_ok _ _ hchk]

/-- Counterexample to C3: the incoming task is strictly newer and its
contents differ, yet the receiver's entity is *not* replaced by the
incoming one — the incoming task's unset `description` is dropped from
`to_dict()` (`suppress_none`), so the receiver's description survives the
"replacement". -/
theorem C3_lww_cex :
    exMergeThis.modified_time < exMergeOther.modified_time ∧
      exMergeOther ≠ exMergeThis ∧
      Board.updateWithBoard exBoardThis exBoardOther exactMatch 100 =
        .ok exBoardThisMerged ∧
      dictGet exBoardThisMerged.tasks 0 ≠ some exMergeOther := by
  refine ⟨by decide, by decide, by decide, ?_⟩
  intro h
  have h2 : exMergeResult = exMergeOther := by
    have := (Option.some.injEq _ _).mp ((by decide :
      dictGet exBoardThisMerged.tasks 0 = some exMergeResult) ▸ h)
    exact this
  exact absurd (congrArg Task.description h2) (by decide)

/-- C3 (amended): during `update_with_board`, for an incoming task whose
uuid exists in the receiver (under id `i`, holding task `t`), the
processing step leaves the receiver's tasks untouched when the contents
are equal or the incoming `modified_time` is not strictly later; when the
contents differ and the incoming `modified_time` is strictly later, a
successful step stores, at the same id `i`, the *overlay*
`mergeOverlayTask t ot` — the incoming entity's present (non-`None`)
fields over the receiver's — rather than the incoming entity itself. -/
theorem C3_lww_amended (matcher : NameMatcher) (now : Int) (b : Board)
    (tmap : List (Nat × Nat)) (other_id : Nat) (ot : Task) (i : Nat)
    (t : Task)
    (hidx : dictGet b.taskUuidToId ot.uuid = some i)
    (ht : dictGet b.tasks i = some t) :
    ((ot = t ∨ ot.modified_time ≤ t.modified_time) →
      Board.mergeTaskStep matcher now (b, tmap) (other_id, ot) =
        .ok (b, if i != other_id then dictInsert tmap other_id i
                else tmap)) ∧
    (ot ≠ t → t.modified_time < ot.modified_time →
      ∀ b2 tm2,
        Board.mergeTaskStep matcher now (b, tmap) (other_id, ot) =
          .ok (b2, tm2) →
        b2 = { b with
                tasks := dictInsert b.tasks i (mergeOverlayTask t ot) }) := by
  constructor
  · intro h
    unfold Board.mergeTaskStep
    simp only [hidx, ht]
    rcases h with he | hle
    · rw [if_neg (by simp [he])]
    · by_cases he : ot = t
      · rw [if_neg (by simp [he])]
      · rw [if_pos he, if_neg (not_lt.mpr hle)]
  · intro hne hlt b2 tm2 hstep
    unfold Board.mergeTaskStep at hstep
    simp only [hidx, ht] at hstep
    rw [if_pos hne, if_pos hlt] at hstep
    rcases hup : b.updateTask i ot.toPatch matcher now with e | b3
    · rw [hup] at hstep
      exact Except.noConfusion hstep
    · rw [hup] at hstep
      injection hstep with hstep
      have hb3 : b3 = b2 := congrArg Prod.fst hstep
      rw [← hb3, updateTask_ok b i ot.toPatch matcher now t b3 ht hup]
      rfl

/-- Witness for C3: on the example boards, an equal-or-older incoming task
leaves the receiver untouched, and the successful newer-incoming step
stores exactly the overlay. -/
theorem C3_lww_amended_witness :
    Board.mergeTaskStep exactMatch 100 (exBoardThisMerged, [])
      (0, exMergeThis) = .ok (exBoardThisMerged, []) ∧
    exBoardThisMerged =
      { exBoardThis with
          tasks := dictInsert exBoardThis.tasks 0
            (mergeOverlayTask exMergeThis exMergeOther) } :=
  ⟨(C3_lww_amended exactMatch 100 exBoardThisMerged [] 0 exMergeThis 0
      exMergeResult rfl rfl).1 (Or.inr (by decide)),
   (C3_lww_amended exactMatch 100 exBoardThis [] 0 exMergeOther 0
      exMergeThis rfl rfl).2 (by decide) (by decide) exBoardThisMerged []
      (by decide)⟩

/-!
## C5 — atomicity of failed operations
-/

/-- Counterexample to C5: `update_with_board` is *not* atomic.  Merging a
source holding a fresh "beta" and then a second incomplete "alpha" into a
receiver that already has an incomplete "alpha" raises
`DuplicateTaskNameError` only after "beta" has been created: the error
state differs from the initial board. -/
theorem C5_atomicity_cex :
    Board.updateWithBoard exBoardC5 exBoardC5Other exactMatch 100 =
      .error (.duplicateTaskName, exBoardC5Partial) ∧
      exBoardC5Partial ≠ exBoardC5 := by
  refine ⟨by decide, ?_⟩
  intro h
  exact absurd (congrArg (fun bb => bb.tasks.length) h) (by decide)

/-- C5 (amended): every mutating board operation *except*
`update_with_board` is atomic — a raised error always carries the board
unchanged — and a merge rejected by the version check raises before
touching any entity; but a merge that fails after the version check may
leave entities already processed (see the counterexample). -/
theorem C5_atomicity_amended (b : Board) (matcher : NameMatcher)
    (now : Int) :
    (∀ p e b2, b.createProject p matcher = .error (e, b2) → b2 = b) ∧
    (∀ t e b2, b.createTask t matcher = .error (e, b2) → b2 = b) ∧
    (∀ pid q e b2, b.updateProject pid q matcher now = .error (e, b2) →
      b2 = b) ∧
    (∀ tid q e b2, b.updateTask tid q matcher now = .error (e, b2) →
      b2 = b) ∧
    (∀ pid e b2, b.deleteProject pid = .error (e, b2) → b2 = b) ∧
    (∀ tid e b2, b.deleteTask tid = .error (e, b2) → b2 = b) ∧
    (∀ tid a dt? fdt? e b2,
      b.applyStatusAction tid a dt? fdt? now = .error (e, b2) → b2 = b) ∧
    (∀ other : Board, other.version > b.version →
      b.updateWithBoard other matcher now =
        .error (.versionMismatch, b)) := by
  refine ⟨?_, ?_, ?_, ?_, ?_, ?_, ?_, ?_⟩
  · intro p e b2 h
    unfold Board.createProject at h
    repeat' first
    | (injection h with h; exact (congrArg Prod.snd h).symm)
    | injection h
    | split at h
    | split_ifs at h
    | simp only [] at h
  · intro t e b2 h
    unfold Board.createTask at h
    repeat' first
    | (injection h with h; exact (congrArg Prod.snd h).symm)
    | injection h
    | split at h
    | split_ifs at h
    | simp only [] at h
  · intro pid q e b2 h
    unfold Board.updateProject at h
    repeat' first
    | (injection h with h; exact (congrArg Prod.snd h).symm)
    | injection h
    | split at h
    | split_ifs at h
    | simp only [] at h
  · intro tid q e b2 h
    unfold Board.updateTask at h
    repeat' first
    | (injection h with h; exact (congrArg Prod.snd h).symm)
    | injection h
    | split at h
    | split_ifs at h
    | simp only [] at h
  · intro pid e b2 h
    unfold Board.deleteProject at h
    repeat' first
    | (injection h with h; exact (congrArg Prod.snd h).symm)
    | injection h
    | split at h
    | split_ifs at h
    | simp only [] at h
  · intro tid e b2 h
    unfold Board.deleteTask at h
    repeat' first
    | (injection h with h; exact (congrArg Prod.snd h).symm)
    | injection h
    | split at h
    | split_ifs at h
    | simp only [] at h
  · intro tid a dt? fdt? e b2 h
    unfold Board.applyStatusAction at h
    repeat' first
    | (injection h with h; exact (congrArg Prod.snd h).symm)
    | injection h
    | split at h
    | split_ifs at h
    | simp only [] at h
  · intro other hv
    unfold Board.updateWithBoard
    rw [if_pos hv]

/-- Witness for C5: a duplicate-name `create_task` failure carries the
unchanged board, and merging a newer-versioned board is rejected with the
receiver untouched. -/
theorem C5_atomicity_amended_witness :
    exBoardResume = exBoardResume ∧
      Board.updateWithBoard exBoardClone exBoardV1 exactMatch 100 =
        .error (.versionMismatch, exBoardClone) :=
  ⟨(C5_atomicity_amended exBoardResume exactMatch 100).2.1 exNewAlpha
     .duplicateTaskName exBoardResume (by decide),
   (C5_atomicity_amended exBoardClone exactMatch 100).2.2.2.2.2.2.2
     exBoardV1 (by decide)⟩

end DK
